import Mathlib

/-!
Shallow embedding of the AIC Hub authentication, rate-limiting, username
allocation and tag trending core (apps/api/src/aic_hub), with theorems
checking the natural-language specification against the code.

Conventions used throughout:
* wall-clock instants are modelled as integer Unix timestamps in seconds;
* SQL NULL is modelled as `Option.none`; a table is a `List` of row
  structures; an append-only insert is a list append;
* Python exceptions that the code under scrutiny does not catch are
  modelled as `Except.error` results; exceptions the code catches and
  converts are converted in the model at the same place.
-/

namespace AicHub

/-! ### Credential and token service (aic_hub/security.py) -/

/-- Whitespace characters stripped by Python `str.strip()` (the ASCII
ones; the claims only use ASCII inputs). -/
def isPythonSpace (c : Char) : Bool :=
  c == ' ' || c == '\t' || c == '\n' || c == '\r' ||
  c == '\x0b' || c == '\x0c'

/-- Model of Python `str.strip()`: drop leading and trailing
whitespace. -/
def pyStrip (s : String) : String :=
  String.mk
    (((s.data.dropWhile isPythonSpace).reverse.dropWhile
      isPythonSpace).reverse)

/-- Model of `normalize_email`: strip surrounding whitespace, lowercase.
Python `str.lower` is modelled per character by `Char.toLower` (the
claims only use ASCII emails, where the two agree). -/
def normalize_email (email : String) : String :=
  String.mk ((pyStrip email).data.map Char.toLower)

/-- Model of `hash_email`: the SHA-256 hex digest of the normalized email.
The digest is modelled as the identity on the normalized email: it is a
deterministic injective encoding, which is the only property of the digest
the code relies on (log rows and rate-limit keys are compared for
equality, never inverted). -/
def hash_email (email : String) : String :=
  normalize_email email

/-- PHC-format tag that every argon2id hash string starts with. -/
def phcTag : String := "$argon2id$"

/-- Model of `hash_password` (argon2id via `PasswordHasher.hash`).
The memory-hard digest is modelled as an injective tagged encoding of the
password: `verify` only ever parses the PHC prefix and then compares the
recomputed digest, which is what the model reproduces. -/
def hash_password (password : String) : String :=
  phcTag ++ password

/-- Exceptions raised by `argon2.PasswordHasher.verify`. -/
inductive Argon2Error where
  | verifyMismatch
  | invalidHash
deriving DecidableEq

/-- A stored hash string is well-formed when it parses as a PHC argon2id
string; modelled as carrying the PHC tag as its first ten characters. -/
def wellFormedHash (storedHash : String) : Bool :=
  decide (storedHash.data.take 10 = phcTag.data)

/-- Model of `argon2.PasswordHasher.verify`: a malformed hash raises
`InvalidHashError`; a well-formed hash that does not match the password
raises `VerifyMismatchError`; a match returns `True`. -/
def argon2_verify (storedHash password : String) : Except Argon2Error Bool :=
  if wellFormedHash storedHash then
    if storedHash = hash_password password then Except.ok true
    else Except.error Argon2Error.verifyMismatch
  else Except.error Argon2Error.invalidHash

/-- Model of `verify_password` (security.py lines 49-53): it calls
`argon2.verify` and catches only `VerifyMismatchError`, converting it to
`False`; every other exception (in particular `InvalidHashError` on a
malformed stored hash) propagates. -/
def verify_password (storedHash password : String) : Except Argon2Error Bool :=
  match argon2_verify storedHash password with
  | Except.error Argon2Error.verifyMismatch => Except.ok false
  | r => r

/-- Session claims as produced by `SessionTokenManager` (user id kept as a
string, as in the serialized payload). -/
structure SessionClaims where
  user_id : String
  issued_at : Int
  expires_at : Int
deriving DecidableEq

/-- A serialized session token. The `itsdangerous` URL-safe timed
serializer embeds a signing timestamp and a MAC over the payload; the MAC
is modelled by the `sig_valid` flag (true for tokens produced by `issue`,
false models any tampered or foreign token). The random nonce only makes
distinct issuances distinct and is modelled as a plain field. -/
structure SessionToken where
  payload_user_id : String
  iat : Int
  exp : Int
  nonce : Nat
  signed_at : Int
  sig_valid : Bool
deriving DecidableEq

/-- Model of `SessionTokenManager.issue`: payload holds the user id,
issued-at `now`, expiry `now + max_age`; the serializer stamps the token
with the signing time. `maxAge` is the configured
`session_cookie.max_age_seconds` of the manager. -/
def issueSessionToken (maxAge : Int) (userId : String) (now : Int) :
    SessionToken × SessionClaims :=
  ({ payload_user_id := userId
     iat := now
     exp := now + maxAge
     nonce := 0
     signed_at := now
     sig_valid := true },
   { user_id := userId, issued_at := now, expires_at := now + maxAge })

/-- Model of `SessionTokenManager.verify`: `loads` rejects a bad signature
and (via `max_age`) a signing timestamp older than `maxAge` seconds, both
caught and returned as `none`; then the payload expiry is compared against
`now`, returning `none` when expired, otherwise the claims. -/
def verifySessionToken (maxAge : Int) (token : SessionToken) (now : Int) :
    Option SessionClaims :=
  if token.sig_valid = false then none
  else if maxAge < now - token.signed_at then none
  else if token.exp < now then none
  else some { user_id := token.payload_user_id
              issued_at := token.iat
              expires_at := token.exp }

/-! ### Rate limiter (aic_hub/rate_limiter.py) -/

/-- Auth action kinds (models/auth_attempt.py `AuthAction`). -/
inductive AuthAction where
  | signup
  | login
deriving DecidableEq

/-- The two rate-limit scopes of `AuthRateLimiter._rules`. -/
inductive RateScope where
  | email
  | ip
deriving DecidableEq

/-- Model of `RateLimitRule`: a limit and a window length in seconds. -/
structure RateLimitRule where
  limit : Nat
  window : Int
deriving DecidableEq

/-- Model of `AuthRateLimiter._rules`: signup allows 5 attempts per scope,
login 10, both in a 15-minute (900 second) window. -/
def authRules : AuthAction → RateScope → RateLimitRule
  | AuthAction.signup, _ => { limit := 5, window := 900 }
  | AuthAction.login, _ => { limit := 10, window := 900 }

/-- One `auth_attempts` row (models/auth_attempt.py `AuthAttempt`). -/
structure AuthAttemptRow where
  action : AuthAction
  email_hash : Option String
  ip_address : Option String
  success : Bool
  reason : Option String
  created_at : Int
deriving DecidableEq

/-- Column selected by the limiter for a scope (`AuthAttempt.email_hash`
for the email scope, `AuthAttempt.ip_address` for the ip scope). -/
def scopeKey (scope : RateScope) (row : AuthAttemptRow) : Option String :=
  match scope with
  | RateScope.email => row.email_hash
  | RateScope.ip => row.ip_address

/-- Model of the `_count` query inside `assert_within_limits`: the number
of logged attempts with the same action, the scope column equal to the
key, and `created_at >= now - window` for the window of that scope. -/
def countAttempts (log : List AuthAttemptRow) (action : AuthAction)
    (scope : RateScope) (value : String) (now : Int) : Nat :=
  log.countP fun row =>
    decide (row.action = action ∧ scopeKey scope row = some value ∧
      now - (authRules action scope).window ≤ row.created_at)

/-- Model of `AuthRateLimiter.assert_within_limits`: the email scope is
checked first and, when its key is present and the windowed count reached
its limit, the email scope is reported; otherwise the ip scope is checked
the same way; a scope whose key is `None` is skipped. The raised
`RateLimitExceeded(scope)` is modelled as `some scope`. -/
def assert_within_limits (log : List AuthAttemptRow) (action : AuthAction)
    (email_hash ip_address : Option String) (now : Int) : Option RateScope :=
  let emailHit : Bool :=
    match email_hash with
    | some v =>
        decide ((authRules action RateScope.email).limit ≤
          countAttempts log action RateScope.email v now)
    | none => false
  if emailHit then some RateScope.email
  else
    let ipHit : Bool :=
      match ip_address with
      | some v =>
          decide ((authRules action RateScope.ip).limit ≤
            countAttempts log action RateScope.ip v now)
      | none => false
    if ipHit then some RateScope.ip else none

/-- Model of `AuthRateLimiter.record_attempt`: appends one immutable
`AuthAttempt` row to the log. -/
def record_attempt (log : List AuthAttemptRow) (action : AuthAction)
    (email_hash ip_address : Option String) (success : Bool)
    (reason : Option String) (now : Int) : List AuthAttemptRow :=
  log ++ [{ action := action
            email_hash := email_hash
            ip_address := ip_address
            success := success
            reason := reason
            created_at := now }]

/-! ### Auth route handlers (aic_hub/routes/auth.py) -/

/-- One `users` row (models/user.py `User`), restricted to the columns the
auth handlers touch. The `username` column is declared NOT NULL in the
model; `none` here models SQL NULL about to be rejected by the store. -/
structure UserRow where
  id : Nat
  email : String
  password_hash : Option String
  username : Option String
  display_name : Option String
  last_login : Option Int
deriving DecidableEq

/-- Database state seen by the auth handlers: the `users` table and the
append-only `auth_attempts` log. -/
structure DBState where
  users : List UserRow
  attempts : List AuthAttemptRow
deriving DecidableEq

/-- Model of the ORM flush of a new `users` row. The `username` column is
NOT NULL (models/user.py line 21) with no default, so flushing a row whose
username is NULL raises `IntegrityError`, modelled as `none`. -/
def flush_user (users : List UserRow) (user : UserRow) :
    Option (List UserRow) :=
  if user.username = none then none else some (users ++ [user])

/-- Model of `_password_strength_ok` (routes/auth.py lines 58-63): length
at least the configured minimum, at least one alphabetic and one digit
character. -/
def password_strength_ok (minLength : Nat) (password : String) : Bool :=
  if password.length < minLength then false
  else password.data.any (fun c => c.isAlpha) &&
    password.data.any (fun c => c.isDigit)

/-- Reason string recorded for a rate-limited attempt. -/
def rateLimitReason (scope : RateScope) : String :=
  match scope with
  | RateScope.email => "rate_limit_email"
  | RateScope.ip => "rate_limit_ip"

/-- Outcome of the signup handler, one constructor per HTTP response
class. `integrityError` is an exception escaping the handler (HTTP 500):
the ORM session of the request is rolled back, so no write survives. -/
inductive SignupOutcome where
  | weakPassword
  | rateLimited (scope : RateScope)
  | duplicateEmail
  | integrityError
  | created (userId : Nat)
deriving DecidableEq

/-- Model of the `signup` handler (routes/auth.py lines 169-276).

`minLength` stands for `settings.password_min_length`. Modelled from the
spec: the `password_min_length` setting and the `get_db_session`
dependency are referenced by routes/auth.py but their declarations are not
under src/; per the spec a weak password is a validation failure with no
partial state written, and each request runs in one ORM session that rolls
back when an exception escapes the handler.

Control flow, in source order: normalize and hash the email; reject a weak
password (no attempt row is recorded on this path); consult the rate
limiter, recording a failed attempt with reason `rate_limit_<scope>` when
it trips; reject a duplicate email, recording a failed attempt with reason
`duplicate_email`; otherwise build a `User` row with NO username assigned
and flush it — the NOT NULL constraint fires, so the handler never reaches
the success branch that would have recorded reason `created`. -/
def signup (minLength : Nat) (st : DBState) (emailRaw password : String)
    (displayName : Option String) (clientIp : Option String) (now : Int)
    (newId : Nat) : SignupOutcome × DBState :=
  let email := normalize_email emailRaw
  let emailHash := hash_email email
  if password_strength_ok minLength password = false then
    (SignupOutcome.weakPassword, st)
  else
    match assert_within_limits st.attempts AuthAction.signup (some emailHash)
        clientIp now with
    | some scope =>
        let log := record_attempt st.attempts AuthAction.signup
          (some emailHash) clientIp false (some (rateLimitReason scope)) now
        (SignupOutcome.rateLimited scope, { st with attempts := log })
    | none =>
        if st.users.any (fun u => u.email == email) then
          let log := record_attempt st.attempts AuthAction.signup
            (some emailHash) clientIp false (some ("duplicate_email")) now
          (SignupOutcome.duplicateEmail, { st with attempts := log })
        else
          let user : UserRow :=
            { id := newId
              email := email
              password_hash := some (hash_password password)
              username := none
              display_name := displayName.map pyStrip
              last_login := none }
          match flush_user st.users user with
          | none => (SignupOutcome.integrityError, st)
          | some users1 =>
              let users2 := users1.map fun u =>
                if u.id == newId then { u with last_login := some now } else u
              let log := record_attempt st.attempts AuthAction.signup
                (some emailHash) clientIp true (some ("created")) now
              (SignupOutcome.created newId, { users := users2, attempts := log })

/-- Outcome of the login handler. `serverError` is an exception escaping
the handler (for instance `InvalidHashError` from a malformed stored
password hash), rolling the session back. -/
inductive LoginOutcome where
  | rateLimited (scope : RateScope)
  | invalidCredentials
  | serverError
  | ok (userId : Nat)
deriving DecidableEq

/-- Model of the `login` handler (routes/auth.py lines 279-368): rate
limiter first (recording `rate_limit_<scope>` on rejection); then user
lookup by normalized email; a missing user, a NULL password hash, or a
failed `verify_password` all record one failed attempt with reason
`invalid_credentials`; an exception out of `verify_password` escapes with
nothing recorded; success stamps `last_login` and records one successful
attempt with reason `authenticated`. -/
def login (st : DBState) (emailRaw password : String)
    (clientIp : Option String) (now : Int) : LoginOutcome × DBState :=
  let email := normalize_email emailRaw
  let emailHash := hash_email email
  match assert_within_limits st.attempts AuthAction.login (some emailHash)
      clientIp now with
  | some scope =>
      let log := record_attempt st.attempts AuthAction.login
        (some emailHash) clientIp false (some (rateLimitReason scope)) now
      (LoginOutcome.rateLimited scope, { st with attempts := log })
  | none =>
      let failedLog := record_attempt st.attempts AuthAction.login
        (some emailHash) clientIp false (some ("invalid_credentials")) now
      let failed : LoginOutcome × DBState :=
        (LoginOutcome.invalidCredentials, { st with attempts := failedLog })
      match st.users.find? (fun u => u.email == email) with
      | none => failed
      | some u =>
          match u.password_hash with
          | none => failed
          | some storedHash =>
              match verify_password storedHash password with
              | Except.error _ => (LoginOutcome.serverError, st)
              | Except.ok false => failed
              | Except.ok true =>
                  let users := st.users.map fun v =>
                    if v.id == u.id then { v with last_login := some now } else v
                  let log := record_attempt st.attempts AuthAction.login
                    (some emailHash) clientIp true (some ("authenticated")) now
                  (LoginOutcome.ok u.id, { users := users, attempts := log })

/-! ### Username allocator (aic_hub/usernames.py) -/

/-- Character class `[a-z0-9]` of the username pattern. -/
def isLowerAlnum (c : Char) : Bool :=
  (decide ('a' ≤ c) && decide (c ≤ 'z')) ||
  (decide ('0' ≤ c) && decide (c ≤ '9'))

/-- Model of `USERNAME_PATTERN.fullmatch`: the regex
`[a-z0-9][a-z0-9-]{1,30}[a-z0-9]` anchored on both sides is equivalent to:
length between 3 and 32, first and last characters in `[a-z0-9]`, and
every character in `[a-z0-9-]`. -/
def patternOk (cs : List Char) : Bool :=
  decide (3 ≤ cs.length) && decide (cs.length ≤ 32) &&
  (match cs.head? with
   | some c => isLowerAlnum c
   | none => false) &&
  (match cs.getLast? with
   | some c => isLowerAlnum c
   | none => false) &&
  cs.all (fun c => isLowerAlnum c || c == '-')

/-- Model of Python `s[:n]` where `n` may be negative: a negative bound
keeps `len + n` leading characters (clamped at zero). -/
def pythonTake (cs : List Char) (n : Int) : List Char :=
  if 0 ≤ n then cs.take n.toNat
  else cs.take (cs.length - (-n).toNat)

/-- Model of Python `str.rstrip("-")`: drop the maximal trailing run of
hyphens. -/
def dropTrailingHyphens : List Char → List Char
  | [] => []
  | c :: cs =>
      match dropTrailingHyphens cs with
      | [] => if c == '-' then [] else [c]
      | rest => c :: rest

/-- Decimal digit character for a value below ten. -/
def digitChar (n : Nat) : Char :=
  Char.ofNat (48 + n)

/-- Decimal digits of `n`, most significant first; structural fuel makes
the definition kernel-reducible, and `n + 1` is always enough fuel. -/
def natDigitsAux : Nat → Nat → List Char
  | 0, _ => []
  | fuel + 1, n =>
      if n < 10 then [digitChar n]
      else natDigitsAux fuel (n / 10) ++ [digitChar (n % 10)]

/-- Decimal representation of `n` as a character list (Python `f"{n}"`). -/
def natDigits (n : Nat) : List Char :=
  natDigitsAux (n + 1) n

/-- The candidate computed inside `_apply_suffix` (usernames.py lines
41-49) before the final pattern check: append `-<suffix>`, trimming the
base to keep at most 32 characters (re-trimming a trailing hyphen run,
unless that leaves nothing), and pad with `x` up to the minimum length of
3 when the result is shorter. -/
def mkSuffixCandidate (base : String) (suffix : Nat) : List Char :=
  let suffixStr := '-' :: natDigits suffix
  let allowed : Int := 32 - suffixStr.length
  let taken := pythonTake base.data allowed
  let trimmed0 := dropTrailingHyphens taken
  let trimmed := if trimmed0.isEmpty then taken else trimmed0
  let candidate := trimmed ++ suffixStr
  if candidate.length < 3 then (candidate ++ ['x', 'x', 'x']).take 3
  else candidate

/-- Model of `_apply_suffix`: compute the suffixed candidate and raise
`UsernameValidationError` (modelled as `Except.error`) when it fails the
username pattern. -/
def apply_suffix (base : String) (suffix : Nat) : Except String String :=
  let candidate := mkSuffixCandidate base suffix
  if patternOk candidate then Except.ok (String.mk candidate)
  else Except.error ("Generated username does not meet format requirements")

/-- Model of Python `re.sub("-+", "-", s)`: collapse every run of hyphens
to a single hyphen. -/
def collapseHyphens : List Char → List Char
  | [] => []
  | [c] => [c]
  | a :: b :: rest =>
      if a == '-' && b == '-' then collapseHyphens (b :: rest)
      else a :: collapseHyphens (b :: rest)

/-- Model of `_basic_slugify` (usernames.py lines 21-31) for ASCII input:
the NFKD transliteration step is the identity on ASCII and non-ASCII
characters are dropped; then lowercase, replace characters outside
`[a-z0-9-]` with hyphens, collapse hyphen runs, strip edge hyphens, fall
back to `user` when empty, pad with `x` to length 3, cut to 32. -/
def basic_slugify (value : String) : String :=
  let ascii := value.data.filter (fun c => c.toNat < 128)
  let lowered := ascii.map Char.toLower
  let sanitized := lowered.map fun c =>
    if isLowerAlnum c || c == '-' then c else '-'
  let collapsed := collapseHyphens sanitized
  let stripped := dropTrailingHyphens (collapsed.dropWhile (fun c => c == '-'))
  let body := if stripped.isEmpty then ['u', 's', 'e', 'r'] else stripped
  let padded := if body.length < 3 then (body ++ ['x', 'x', 'x']).take 3 else body
  String.mk (padded.take 32)

/-- Model of `normalize_username`: slugify the stripped input and reject a
candidate that fails the username pattern. -/
def normalize_username (value : String) : Except String String :=
  let candidate := basic_slugify (pyStrip value)
  if patternOk candidate.data then Except.ok candidate
  else Except.error
    ("Username must be 3-32 characters of lowercase letters, numbers, or hyphens")

/-- Local part of an email address, Python `email.split("@", 1)[0]`: the
characters before the first `@`, or the whole string when there is
none. -/
def emailLocalPart (email : String) : String :=
  String.mk (email.data.takeWhile (fun c => c != '@'))

/-- Loop body of `generate_unique_username` (usernames.py lines 63-73):
try the current candidate against the taken set; on collision move to
`_apply_suffix(base, suffix)` and bump the suffix. The source loops
without bound; the model carries explicit fuel, and `Except.error` with
this message marks exhausted fuel (never reached in the theorems below,
whose hypotheses pin down the iteration where the loop returns). -/
def genLoop (taken : List String) (base : String) :
    Nat → String → Nat → Except String String
  | 0, _, _ => Except.error ("loop fuel exhausted")
  | fuel + 1, candidate, suffix =>
      if taken.contains candidate then
        match apply_suffix base suffix with
        | Except.ok next => genLoop taken base fuel next (suffix + 1)
        | Except.error e => Except.error e
      else Except.ok candidate

/-- Model of `generate_unique_username`: derive the base candidate from
the email local part via `normalize_username`, then run the collision
loop. `taken` is the set of usernames in the user table visible to the
query (the `exclude_user_id` filter is applied by dropping the excluded
row from `taken`). `fuel` bounds the unbounded source loop. -/
def generate_unique_username (fuel : Nat) (taken : List String)
    (email : String) : Except String String :=
  match normalize_username (emailLocalPart email) with
  | Except.error e => Except.error e
  | Except.ok base => genLoop taken base fuel base 1

/-- The candidate tried by the `generate_unique_username` loop at
iteration `j`: the bare base for `j = 0`, the suffixed candidate
`base-j` (with trimming) afterwards. -/
def usernameCandidate (base : String) (j : Nat) : String :=
  if j = 0 then base else String.mk (mkSuffixCandidate base j)

/-! ### Tag usage and trending engine (aic_hub/services/tag_service.py) -/

/-- The fixed taxonomy `AI_TAGS` (aic_hub/constants.py). -/
def AI_TAGS : List String :=
  ["LLMs", "RAG", "Agents", "Fine-tuning", "Prompting",
   "Vector DBs", "Embeddings", "Training", "Inference",
   "Ethics", "Safety", "Benchmarks", "Datasets", "Tools",
   "Computer Vision", "NLP", "Speech", "Robotics", "RL"]

/-- One `tag_usage` row (models/tag_usage.py `TagUsage`). The float
`trending_score` column is derived state recomputed wholesale by
`calculate_trending_scores`; the model keeps it out of the row and pairs
rows with their recomputed score instead, so rows stay decidable. -/
structure TagUsageRow where
  tag : String
  article_count : Int
  space_count : Int
  user_count : Int
  last_used_at : Option Int
  week_count : Int
  month_count : Int
deriving DecidableEq

/-- A zero-counter `tag_usage` row as it lands in the store when an
untouched transient `TagUsage(tag=tag)` object is flushed: the column
defaults of models/tag_usage.py fire at INSERT time, yielding zero
counters and no last-use timestamp. (The in-memory transient object
itself has `None` in every one of these attributes; see
`newTransientTagUsage`.) -/
def freshTagUsage (tag : String) : TagUsageRow :=
  { tag := tag
    article_count := 0
    space_count := 0
    user_count := 0
    last_used_at := none
    week_count := 0
    month_count := 0 }

/-- The in-memory `TagUsage(tag=tag)` object freshly constructed at
tag_service.py line 44, before any flush: SQLAlchemy scalar column
defaults (`default=0`) apply only at INSERT, so every counter attribute
reads `None` on the transient object. -/
structure TransientTagUsage where
  tag : String
  article_count : Option Int
  space_count : Option Int
  user_count : Option Int
  last_used_at : Option Int
  week_count : Option Int
  month_count : Option Int
deriving DecidableEq

/-- The transient object built by `TagUsage(tag=tag)`: only the primary
key is set; every other attribute is `None` until flush. -/
def newTransientTagUsage (tag : String) : TransientTagUsage :=
  { tag := tag
    article_count := none
    space_count := none
    user_count := none
    last_used_at := none
    week_count := none
    month_count := none }

/-- Python addition applied to a possibly-`None` attribute:
`None + delta` raises `TypeError`, modelled as `Except.error`. -/
def pyAddOpt (a : Option Int) (b : Int) : Except String Int :=
  match a with
  | some x => Except.ok (x + b)
  | none => Except.error ("TypeError: NoneType + int")

/-- The per-row mutation inside `update_tag_usage` (tag_service.py lines
47-60) applied to a loaded, persisted row, whose counters are integers
(the columns are NOT NULL): clamp the counter selected by `entity_type`
at a floor of zero (an unrecognized entity type touches no counter), and
on a positive delta stamp `last_used_at` and bump the week and month
counters. -/
def applyTagDelta (now : Int) (entityType : String) (delta : Int)
    (r : TagUsageRow) : TagUsageRow :=
  let r1 :=
    if entityType == "article" then
      { r with article_count := max 0 (r.article_count + delta) }
    else if entityType == "space" then
      { r with space_count := max 0 (r.space_count + delta) }
    else if entityType == "user" then
      { r with user_count := max 0 (r.user_count + delta) }
    else r
  if 0 < delta then
    { r1 with last_used_at := some now
              week_count := r1.week_count + 1
              month_count := r1.month_count + 1 }
  else r1

/-- The same mutation (tag_service.py lines 47-60) applied to the
transient `TagUsage(tag=tag)` object of the missing-row branch: each
counter update computes `max(0, attribute + delta)` and each bump
computes `attribute + 1` through `pyAddOpt`, so touching any of the
`None` counters raises `TypeError`, exactly as the source does. -/
def applyTagDeltaTransient (now : Int) (entityType : String) (delta : Int)
    (t : TransientTagUsage) : Except String TransientTagUsage :=
  let step1 : Except String TransientTagUsage :=
    if entityType == "article" then
      (pyAddOpt t.article_count delta).map fun s =>
        { t with article_count := some (max 0 s) }
    else if entityType == "space" then
      (pyAddOpt t.space_count delta).map fun s =>
        { t with space_count := some (max 0 s) }
    else if entityType == "user" then
      (pyAddOpt t.user_count delta).map fun s =>
        { t with user_count := some (max 0 s) }
    else Except.ok t
  match step1 with
  | Except.error e => Except.error e
  | Except.ok t1 =>
      if 0 < delta then
        match pyAddOpt t1.week_count 1 with
        | Except.error e => Except.error e
        | Except.ok w =>
            match pyAddOpt t1.month_count 1 with
            | Except.error e => Except.error e
            | Except.ok m =>
                Except.ok { t1 with last_used_at := some now
                                    week_count := some w
                                    month_count := some m }
      else Except.ok t1

/-- Flushing a transient row at commit: the INSERT applies the column
defaults (`default=0`) to every attribute still `None`; `last_used_at`
is nullable with no default. -/
def flushTransient (t : TransientTagUsage) : TagUsageRow :=
  { tag := t.tag
    article_count := t.article_count.getD 0
    space_count := t.space_count.getD 0
    user_count := t.user_count.getD 0
    last_used_at := t.last_used_at
    week_count := t.week_count.getD 0
    month_count := t.month_count.getD 0 }

/-- Model of `TagService.update_tag_usage` (tag_service.py lines 20-62):
a no-op for tags outside `AI_TAGS`; an existing row for the tag is
mutated in place and committed; on the missing-row branch the counter
arithmetic runs on the transient `TagUsage(tag=tag)` object whose
attributes are still `None`, so a recognized entity type or a positive
delta raises `TypeError` (`Except.error`, nothing committed), and only a
call that touches no attribute reaches the commit, which inserts the
row with its INSERT-time column defaults. -/
def update_tag_usage (now : Int) (rows : List TagUsageRow) (tag : String)
    (entityType : String) (delta : Int) :
    Except String (List TagUsageRow) :=
  if AI_TAGS.contains tag = false then Except.ok rows
  else
    match rows.find? (fun r => r.tag == tag) with
    | some _ =>
        Except.ok (rows.map fun r =>
          if r.tag == tag then applyTagDelta now entityType delta r else r)
    | none =>
        match applyTagDeltaTransient now entityType delta
            (newTransientTagUsage tag) with
        | Except.error e => Except.error e
        | Except.ok t => Except.ok (rows ++ [flushTransient t])

/-- The table state observable after one `update_tag_usage` request: the
new table on success; when the uncaught `TypeError` escapes, the commit
is never reached and the per-request session rolls back, leaving the
stored table unchanged. -/
def update_tag_usage_run (now : Int) (rows : List TagUsageRow)
    (tag : String) (entityType : String) (delta : Int) :
    List TagUsageRow :=
  match update_tag_usage now rows tag entityType delta with
  | Except.ok rows2 => rows2
  | Except.error _ => rows

/-- Total usage of a row: `article_count + space_count + user_count`. -/
def totalUsage (r : TagUsageRow) : Int :=
  r.article_count + r.space_count + r.user_count

/-- The recency factor of `calculate_trending_scores` (tag_service.py
lines 86-91): `1 / (1 + hours_since_use / 168)` when the row has been
used, `0` otherwise. Computed in exact rational arithmetic; the source
uses IEEE doubles, whose rounding is irrelevant to the claims. -/
def recencyFactor (now : Int) (lastUsedAt : Option Int) : ℚ :=
  match lastUsedAt with
  | none => 0
  | some t => 1 / (1 + (((now - t : Int) : ℚ) / 3600) / 168)

/-- The growth factor of `calculate_trending_scores` (tag_service.py
lines 93-97): zero unless `month_count > 0`, in which case
`min(2.0, week_count / max(1, month_count / 4))`. -/
def growthFactor (r : TagUsageRow) : ℚ :=
  if 0 < r.month_count then
    min 2 ((r.week_count : ℚ) / max 1 ((r.month_count : ℚ) / 4))
  else 0

/-- The trending score assigned to one row by
`calculate_trending_scores` (tag_service.py lines 99-104):
`log(total + 1) * 10 + recency * 30 + growth * 20`. -/
noncomputable def trending_score_of (now : Int) (r : TagUsageRow) : ℝ :=
  Real.log ((totalUsage r : ℝ) + 1) * 10 +
    (recencyFactor now r.last_used_at : ℝ) * 30 +
    (growthFactor r : ℝ) * 20

/-- The score formula as the specification states it, with the growth
factor `min(2.0, week_count / max(1, month_count / 4))` applied
unconditionally (no `month_count > 0` guard). -/
noncomputable def spec_trending_score_of (now : Int) (r : TagUsageRow) : ℝ :=
  Real.log ((totalUsage r : ℝ) + 1) * 10 +
    (recencyFactor now r.last_used_at : ℝ) * 30 +
    ((min 2 ((r.week_count : ℚ) / max 1 ((r.month_count : ℚ) / 4)) : ℚ) : ℝ) * 20

/-- Model of `TagService.calculate_trending_scores`: every stored row gets
its trending score recomputed from the formula; the updated float column
is modelled as the score paired with the row. -/
noncomputable def calculate_trending_scores (now : Int)
    (rows : List TagUsageRow) : List (TagUsageRow × ℝ) :=
  rows.map fun r => (r, trending_score_of now r)

/-- Model of `TagService.reset_periodic_counts` (tag_service.py lines
108-124): a week reset zeroes `week_count` on every row, a month reset
zeroes both `week_count` and `month_count`; any other period string does
nothing. -/
def reset_periodic_counts (rows : List TagUsageRow) (period : String) :
    List TagUsageRow :=
  if period == "week" then
    rows.map fun r => { r with week_count := 0 }
  else if period == "month" then
    rows.map fun r => { r with month_count := 0, week_count := 0 }
  else rows

/-- An operation of the tag usage engine, for stating invariants over
arbitrary interleavings of updates and periodic resets. -/
inductive TagOp where
  | update (tag entityType : String) (delta : Int) (now : Int)
  | reset (period : String)

/-- Run one engine operation against the stored table; an update whose
`TypeError` escapes leaves the table unchanged (rollback), per
`update_tag_usage_run`. -/
def applyTagOp (rows : List TagUsageRow) : TagOp → List TagUsageRow
  | TagOp.update tag entityType delta now =>
      update_tag_usage_run now rows tag entityType delta
  | TagOp.reset period => reset_periodic_counts rows period

/-- Run a sequence of engine operations left to right. -/
def applyTagOps (rows : List TagUsageRow) (ops : List TagOp) :
    List TagUsageRow :=
  ops.foldl applyTagOp rows

/-- A concrete auth attempt row used to evaluate the limiter model on
closed inputs. -/
def sampleAttempt : AuthAttemptRow :=
  { action := AuthAction.signup
    email_hash := some ("e")
    ip_address := some ("i")
    success := false
    reason := none
    created_at := 1000 }

/-- A row whose month counter is zero while its week counter is positive:
the state on which the code and the specified growth factor disagree. -/
def weekOnlyRow : TagUsageRow :=
  { tag := "LLMs"
    article_count := 0
    space_count := 0
    user_count := 0
    last_used_at := none
    week_count := 1
    month_count := 0 }

/-- A row used just now but with no recent growth. -/
def recentLowGrowthRow : TagUsageRow :=
  { tag := "LLMs"
    article_count := 0
    space_count := 0
    user_count := 0
    last_used_at := some 1000
    week_count := 0
    month_count := 4 }

/-- A row last used a week earlier but with strong recent growth. -/
def staleHighGrowthRow : TagUsageRow :=
  { tag := "RAG"
    article_count := 0
    space_count := 0
    user_count := 0
    last_used_at := some (-603800)
    week_count := 8
    month_count := 4 }

/-! ### Theorems -/

/-- Every per-scope rule of the limiter has a strictly positive limit. -/
theorem authRules_limit_pos (a : AuthAction) (s : RateScope) :
    0 < (authRules a s).limit := by
  cases a <;> cases s <;> decide

/-- When the email key is present and its windowed count reached the
limit, the limiter reports the email scope. -/
theorem assert_email_hit (log : List AuthAttemptRow) (action : AuthAction)
    (v : String) (ip : Option String) (now : Int)
    (h : (authRules action RateScope.email).limit ≤
      countAttempts log action RateScope.email v now) :
    assert_within_limits log action (some v) ip now = some RateScope.email := by
  simp [assert_within_limits, h]

/-- When the email scope does not trip (key absent, or count below limit)
and the ip key is present with its count at the limit, the limiter
reports the ip scope. -/
theorem assert_ip_hit (log : List AuthAttemptRow) (action : AuthAction)
    (eh : Option String) (v : String) (now : Int)
    (hE : ∀ w, eh = some w →
      countAttempts log action RateScope.email w now <
        (authRules action RateScope.email).limit)
    (h : (authRules action RateScope.ip).limit ≤
      countAttempts log action RateScope.ip v now) :
    assert_within_limits log action eh (some v) now = some RateScope.ip := by
  cases eh with
  | none => simp [assert_within_limits, h]
  | some w =>
      have hw := hE w rfl
      simp [assert_within_limits, h, Nat.not_le.mpr hw]

/-- When neither present scope has a count at its limit, the limiter
passes. -/
theorem assert_no_hit (log : List AuthAttemptRow) (action : AuthAction)
    (eh ip : Option String) (now : Int)
    (hE : ∀ w, eh = some w →
      countAttempts log action RateScope.email w now <
        (authRules action RateScope.email).limit)
    (hI : ∀ w, ip = some w →
      countAttempts log action RateScope.ip w now <
        (authRules action RateScope.ip).limit) :
    assert_within_limits log action eh ip now = none := by
  cases eh with
  | none =>
      cases ip with
      | none => simp [assert_within_limits]
      | some w => simp [assert_within_limits, Nat.not_le.mpr (hI w rfl)]
  | some w =>
      cases ip with
      | none => simp [assert_within_limits, Nat.not_le.mpr (hE w rfl)]
      | some w2 =>
          simp [assert_within_limits, Nat.not_le.mpr (hE w rfl),
            Nat.not_le.mpr (hI w2 rfl)]

/-- A scope whose rows all lie strictly before the window start counts
zero attempts. -/
theorem countAttempts_eq_zero (log : List AuthAttemptRow)
    (action : AuthAction) (scope : RateScope) (v : String) (now : Int)
    (h : ∀ row ∈ log, row.action = action → scopeKey scope row = some v →
      row.created_at < now - (authRules action scope).window) :
    countAttempts log action scope v now = 0 := by
  unfold countAttempts
  rw [List.countP_eq_zero]
  intro row hrow
  simp only [decide_eq_true_eq, not_and, not_le]
  intro ha hk
  exact h row hrow ha hk

/-- C1: for each auth action and its per-scope (limit, window) rule, a
call to `assert_within_limits` whose email (resp. ip) key already counts
at least the limit inside the trailing window signals a failure — naming
the email scope, resp. naming the ip scope whenever the email scope is
not itself at its limit; a call whose present scopes only have rows
strictly before the window start signals nothing; and a scope whose key
is `None` never causes a failure. -/
theorem c1_rate_limiter_window (log : List AuthAttemptRow)
    (action : AuthAction) (eh ip : Option String) (now : Int) :
    (∀ v, eh = some v →
      (authRules action RateScope.email).limit ≤
        countAttempts log action RateScope.email v now →
      assert_within_limits log action eh ip now = some RateScope.email) ∧
    (∀ v, ip = some v →
      (authRules action RateScope.ip).limit ≤
        countAttempts log action RateScope.ip v now →
      assert_within_limits log action eh ip now ≠ none) ∧
    (∀ v, ip = some v →
      (authRules action RateScope.ip).limit ≤
        countAttempts log action RateScope.ip v now →
      (∀ w, eh = some w →
        countAttempts log action RateScope.email w now <
          (authRules action RateScope.email).limit) →
      assert_within_limits log action eh ip now = some RateScope.ip) ∧
    ((∀ row ∈ log, ∀ w, eh = some w → row.action = action →
        row.email_hash = some w →
        row.created_at < now - (authRules action RateScope.email).window) →
     (∀ row ∈ log, ∀ w, ip = some w → row.action = action →
        row.ip_address = some w →
        row.created_at < now - (authRules action RateScope.ip).window) →
     assert_within_limits log action eh ip now = none) ∧
    (eh = none → assert_within_limits log action eh ip now ≠ some RateScope.email) ∧
    (ip = none → assert_within_limits log action eh ip now ≠ some RateScope.ip) := by
  refine ⟨?_, ?_, ?_, ?_, ?_, ?_⟩
  · intro v hv hcnt
    subst hv
    exact assert_email_hit log action v ip now hcnt
  · intro v hv hcnt
    subst hv
    by_cases hEmail : ∀ w, eh = some w →
        countAttempts log action RateScope.email w now <
          (authRules action RateScope.email).limit
    · rw [assert_ip_hit log action eh v now hEmail hcnt]
      simp
    · push_neg at hEmail
      obtain ⟨w, hw, hwc⟩ := hEmail
      subst hw
      rw [assert_email_hit log action w (some v) now hwc]
      simp
  · intro v hv hcnt hE
    subst hv
    exact assert_ip_hit log action eh v now hE hcnt
  · intro hEold hIold
    apply assert_no_hit
    · intro w hw
      have : countAttempts log action RateScope.email w now = 0 :=
        countAttempts_eq_zero log action RateScope.email w now
          (fun row hrow ha hk => hEold row hrow w hw ha hk)
      rw [this]
      exact authRules_limit_pos action RateScope.email
    · intro w hw
      have : countAttempts log action RateScope.ip w now = 0 :=
        countAttempts_eq_zero log action RateScope.ip w now
          (fun row hrow ha hk => hIold row hrow w hw ha hk)
      rw [this]
      exact authRules_limit_pos action RateScope.ip
  · intro hv
    subst hv
    unfold assert_within_limits
    cases ip with
    | none => simp
    | some w =>
        by_cases hc : (authRules action RateScope.ip).limit ≤
            countAttempts log action RateScope.ip w now <;> simp [hc]
  · intro hv
    subst hv
    unfold assert_within_limits
    cases eh with
    | none => simp
    | some w =>
        by_cases hc : (authRules action RateScope.email).limit ≤
            countAttempts log action RateScope.email w now <;> simp [hc]

/-- C1 witness: five signup attempts for the same email hash inside the
window trip the limiter at the signup limit of five, naming the email
scope. -/
theorem c1_rate_limiter_window_witness :
    assert_within_limits (List.replicate 5 sampleAttempt) AuthAction.signup
      (some ("e")) (some ("i")) 1000 = some RateScope.email :=
  (c1_rate_limiter_window (List.replicate 5 sampleAttempt)
    AuthAction.signup (some ("e")) (some ("i")) 1000).1 ("e") rfl (by decide)

/-- C2 (amended): each rejection the handlers convert into a response —
rate limit and duplicate email for signup; rate limit, invalid
credentials, and success for login — appends exactly the one AuthAttempt
row describing the attempt. The weak-password rejection returns before
the limiter is consulted and appends no row, and a login aborted by an
exception out of `verify_password` also appends none. -/
theorem c2_attempt_logging (minLength : Nat) (st : DBState)
    (emailRaw password : String) (dn clientIp : Option String) (now : Int)
    (newId : Nat) :
    (∀ scope,
      (signup minLength st emailRaw password dn clientIp now newId).1 =
        SignupOutcome.rateLimited scope →
      ((signup minLength st emailRaw password dn clientIp now newId).2).attempts =
        record_attempt st.attempts AuthAction.signup
          (some (hash_email (normalize_email emailRaw))) clientIp false
          (some (rateLimitReason scope)) now) ∧
    ((signup minLength st emailRaw password dn clientIp now newId).1 =
        SignupOutcome.duplicateEmail →
      ((signup minLength st emailRaw password dn clientIp now newId).2).attempts =
        record_attempt st.attempts AuthAction.signup
          (some (hash_email (normalize_email emailRaw))) clientIp false
          (some ("duplicate_email")) now) ∧
    ((signup minLength st emailRaw password dn clientIp now newId).1 =
        SignupOutcome.weakPassword →
      (signup minLength st emailRaw password dn clientIp now newId).2 = st) ∧
    (∀ scope,
      (login st emailRaw password clientIp now).1 =
        LoginOutcome.rateLimited scope →
      ((login st emailRaw password clientIp now).2).attempts =
        record_attempt st.attempts AuthAction.login
          (some (hash_email (normalize_email emailRaw))) clientIp false
          (some (rateLimitReason scope)) now) ∧
    ((login st emailRaw password clientIp now).1 =
        LoginOutcome.invalidCredentials →
      ((login st emailRaw password clientIp now).2).attempts =
        record_attempt st.attempts AuthAction.login
          (some (hash_email (normalize_email emailRaw))) clientIp false
          (some ("invalid_credentials")) now) ∧
    (∀ uid,
      (login st emailRaw password clientIp now).1 = LoginOutcome.ok uid →
      ((login st emailRaw password clientIp now).2).attempts =
        record_attempt st.attempts AuthAction.login
          (some (hash_email (normalize_email emailRaw))) clientIp true
          (some ("authenticated")) now) ∧
    ((login st emailRaw password clientIp now).1 = LoginOutcome.serverError →
      (login st emailRaw password clientIp now).2 = st) := by
  have hS :
      (∀ scope,
        (signup minLength st emailRaw password dn clientIp now newId).1 =
          SignupOutcome.rateLimited scope →
        ((signup minLength st emailRaw password dn clientIp now newId).2).attempts =
          record_attempt st.attempts AuthAction.signup
            (some (hash_email (normalize_email emailRaw))) clientIp false
            (some (rateLimitReason scope)) now) ∧
      ((signup minLength st emailRaw password dn clientIp now newId).1 =
          SignupOutcome.duplicateEmail →
        ((signup minLength st emailRaw password dn clientIp now newId).2).attempts =
          record_attempt st.attempts AuthAction.signup
            (some (hash_email (normalize_email emailRaw))) clientIp false
            (some ("duplicate_email")) now) ∧
      ((signup minLength st emailRaw password dn clientIp now newId).1 =
          SignupOutcome.weakPassword →
        (signup minLength st emailRaw password dn clientIp now newId).2 = st) := by
    cases hpw : password_strength_ok minLength password with
    | false => refine ⟨?_, ?_, ?_⟩ <;> simp [signup, hpw]
    | true =>
        cases hassert : assert_within_limits st.attempts AuthAction.signup
            (some (hash_email (normalize_email emailRaw))) clientIp now with
        | some s =>
            refine ⟨?_, ?_, ?_⟩ <;> simp [signup, hpw, hassert]
        | none =>
            cases hdup : st.users.any
                (fun u => u.email == normalize_email emailRaw) with
            | true => refine ⟨?_, ?_, ?_⟩ <;> simp [signup, hpw, hassert, hdup]
            | false =>
                refine ⟨?_, ?_, ?_⟩ <;>
                  simp [signup, hpw, hassert, hdup, flush_user]
  have hL :
      (∀ scope,
        (login st emailRaw password clientIp now).1 =
          LoginOutcome.rateLimited scope →
        ((login st emailRaw password clientIp now).2).attempts =
          record_attempt st.attempts AuthAction.login
            (some (hash_email (normalize_email emailRaw))) clientIp false
            (some (rateLimitReason scope)) now) ∧
      ((login st emailRaw password clientIp now).1 =
          LoginOutcome.invalidCredentials →
        ((login st emailRaw password clientIp now).2).attempts =
          record_attempt st.attempts AuthAction.login
            (some (hash_email (normalize_email emailRaw))) clientIp false
            (some ("invalid_credentials")) now) ∧
      (∀ uid,
        (login st emailRaw password clientIp now).1 = LoginOutcome.ok uid →
        ((login st emailRaw password clientIp now).2).attempts =
          record_attempt st.attempts AuthAction.login
            (some (hash_email (normalize_email emailRaw))) clientIp true
            (some ("authenticated")) now) ∧
      ((login st emailRaw password clientIp now).1 = LoginOutcome.serverError →
        (login st emailRaw password clientIp now).2 = st) := by
    cases hassert : assert_within_limits st.attempts AuthAction.login
        (some (hash_email (normalize_email emailRaw))) clientIp now with
    | some s =>
        refine ⟨?_, ?_, ?_, ?_⟩ <;> simp [login, hassert]
    | none =>
        cases hfind : st.users.find? (fun u => u.email == normalize_email emailRaw) with
        | none => refine ⟨?_, ?_, ?_, ?_⟩ <;> simp [login, hassert, hfind]
        | some u =>
            cases hph : u.password_hash with
            | none => refine ⟨?_, ?_, ?_, ?_⟩ <;> simp [login, hassert, hfind, hph]
            | some storedHash =>
                cases hver : verify_password storedHash password with
                | error e =>
                    refine ⟨?_, ?_, ?_, ?_⟩ <;>
                      simp [login, hassert, hfind, hph, hver]
                | ok b =>
                    cases b with
                    | false =>
                        refine ⟨?_, ?_, ?_, ?_⟩ <;>
                          simp [login, hassert, hfind, hph, hver]
                    | true =>
                        refine ⟨?_, ?_, ?_, ?_⟩ <;>
                          simp [login, hassert, hfind, hph, hver]
  exact ⟨hS.1, hS.2.1, hS.2.2, hL.1, hL.2.1, hL.2.2.1, hL.2.2.2⟩

/-- C2 (counterexample): a signup rejected for a weak password returns
without appending any AuthAttempt row, contradicting the claim that every
signup outcome appends exactly one. The password has no digit, so it is
weak for every configured minimum length used here. -/
theorem c2_weak_password_appends_no_row :
    (signup 8 ⟨[], []⟩ ("a@b.com") ("password") none none 0 1).1 =
      SignupOutcome.weakPassword ∧
    ((signup 8 ⟨[], []⟩ ("a@b.com") ("password") none none 0 1).2).attempts =
      [] := by
  constructor <;> rfl

/-- C2 witness: a login against an empty user table is rejected with
invalid credentials and appends exactly the one matching row. -/
theorem c2_attempt_logging_witness :
    ((login ⟨[], []⟩ ("a@b.com") ("Sup3rSecure1") none 0).2).attempts =
      record_attempt [] AuthAction.login
        (some (hash_email (normalize_email ("a@b.com")))) none false
        (some ("invalid_credentials")) 0 :=
  (c2_attempt_logging 8 ⟨[], []⟩ ("a@b.com") ("Sup3rSecure1") none none 0
    1).2.2.2.2.1 rfl

/-- C5: evaluating the signup handler at the specified request — email
`a@b.com`, password `Sup3rSecure1`, empty user table — the handler builds
the new `users` row without assigning a username, so the flush violates
the NOT NULL constraint on `users.username`: the request fails with an
escaping `IntegrityError` (HTTP 500), no user is persisted and no
AuthAttempt row is appended, instead of the 201-with-derived-username the
specification describes. -/
theorem c5_signup_rejected_null_username (minLength : Nat)
    (h : minLength ≤ 12) (now : Int) (newId : Nat) :
    signup minLength ⟨[], []⟩ ("a@b.com") ("Sup3rSecure1") none none now newId =
      (SignupOutcome.integrityError, ⟨[], []⟩) := by
  have hpw : password_strength_ok minLength ("Sup3rSecure1") = true := by
    unfold password_strength_ok
    have hlen : ("Sup3rSecure1" : String).length = 12 := rfl
    rw [hlen, if_neg (by omega)]
    decide
  have hassert : assert_within_limits ([] : List AuthAttemptRow)
      AuthAction.signup (some (hash_email (normalize_email ("a@b.com"))))
      none now = none := rfl
  simp [signup, hpw, hassert, flush_user]

/-- C5 witness: the evaluation at a concrete minimum password length. -/
theorem c5_signup_rejected_null_username_witness :
    signup 8 ⟨[], []⟩ ("a@b.com") ("Sup3rSecure1") none none 0 1 =
      (SignupOutcome.integrityError, ⟨[], []⟩) :=
  c5_signup_rejected_null_username 8 (by decide) 0 1

/-- C3: verifying a token issued for `uid` at any wall-clock time from
issuance up to the configured max-age yields the claims for `uid`
(so `user_id` round-trips), and verifying it at any time strictly after
the max-age has elapsed yields `none` — the expiry paths return the
invalid result rather than raising. -/
theorem c3_session_token_roundtrip (maxAge : Int) (uid : String)
    (t0 t t2 : Int) (hle : t0 ≤ t) (hub : t ≤ t0 + maxAge) :
    (verifySessionToken maxAge (issueSessionToken maxAge uid t0).1 t =
      some { user_id := uid, issued_at := t0, expires_at := t0 + maxAge }) ∧
    (t0 + maxAge < t2 →
      verifySessionToken maxAge (issueSessionToken maxAge uid t0).1 t2 =
        none) := by
  constructor
  · have h1 : ¬ maxAge < t - t0 := by omega
    have h2 : ¬ t0 + maxAge < t := by omega
    simp [verifySessionToken, issueSessionToken, h1, h2]
  · intro hexp
    have h1 : maxAge < t2 - t0 := by omega
    simp [verifySessionToken, issueSessionToken, h1]

/-- C3 witness: round trip at concrete times inside the window and
rejection one second past a seven-day max-age. -/
theorem c3_session_token_roundtrip_witness :
    (verifySessionToken 604800 (issueSessionToken 604800 ("u1") 100).1 200 =
      some { user_id := "u1", issued_at := 100, expires_at := 604900 }) ∧
    (verifySessionToken 604800 (issueSessionToken 604800 ("u1") 100).1
      604901 = none) := by
  have h := c3_session_token_roundtrip 604800 ("u1") 100 200 604901
    (by decide) (by decide)
  exact ⟨h.1, h.2 (by decide)⟩

/-- C4 (counterexample): the empty string is not a well-formed argon2
hash, and `verify_password` propagates the `InvalidHashError` from the
argon2 backend instead of returning `False` — only `VerifyMismatchError`
is caught (security.py line 52). -/
theorem c4_malformed_hash_raises :
    verify_password ("") ("password") =
      Except.error Argon2Error.invalidHash := by
  rfl

/-- C4 (amended): on a well-formed stored hash `verify_password` always
returns a boolean — `True` when the hash was produced from the same
password, `False` on a mismatch (the caught `VerifyMismatchError`) — but
a malformed stored hash makes it raise `InvalidHashError` rather than
return `False`. -/
theorem c4_verify_password_spec (storedHash password : String) :
    (wellFormedHash storedHash = true →
      ∃ b, verify_password storedHash password = Except.ok b) ∧
    (wellFormedHash storedHash = false →
      verify_password storedHash password =
        Except.error Argon2Error.invalidHash) ∧
    (verify_password (hash_password password) password = Except.ok true) := by
  refine ⟨?_, ?_, ?_⟩
  · intro hw
    by_cases heq : storedHash = hash_password password
    · subst heq
      exact ⟨true, by simp [verify_password, argon2_verify, hw]⟩
    · exact ⟨false, by simp [verify_password, argon2_verify, hw, heq]⟩
  · intro hw
    simp [verify_password, argon2_verify, hw]
  · have hw : wellFormedHash (hash_password password) = true := by
      unfold wellFormedHash hash_password
      simp [String.data_append, phcTag]
    simp [verify_password, argon2_verify, hw]

/-- C4 witness: the three conjuncts evaluated at concrete hashes. -/
theorem c4_verify_password_spec_witness :
    (∃ b, verify_password ("$argon2id$pw") ("other") = Except.ok b) ∧
    (verify_password ("not-a-hash") ("pw") =
      Except.error Argon2Error.invalidHash) ∧
    (verify_password (hash_password ("pw")) ("pw") = Except.ok true) :=
  ⟨(c4_verify_password_spec ("$argon2id$pw") ("other")).1 (by decide),
   (c4_verify_password_spec ("not-a-hash") ("pw")).2.1 (by decide),
   (c4_verify_password_spec (hash_password ("pw")) ("pw")).2.2⟩

/-- The per-row mutation never changes the tag column. -/
theorem applyTagDelta_tag (now : Int) (e : String) (d : Int)
    (r : TagUsageRow) : (applyTagDelta now e d r).tag = r.tag := by
  unfold applyTagDelta
  split_ifs <;> rfl

/-- The per-row mutation keeps all three per-entity counters nonnegative
when they start nonnegative. -/
theorem applyTagDelta_counts_nonneg (now : Int) (e : String) (d : Int)
    (r : TagUsageRow)
    (h : 0 ≤ r.article_count ∧ 0 ≤ r.space_count ∧ 0 ≤ r.user_count) :
    0 ≤ (applyTagDelta now e d r).article_count ∧
    0 ≤ (applyTagDelta now e d r).space_count ∧
    0 ≤ (applyTagDelta now e d r).user_count := by
  obtain ⟨h1, h2, h3⟩ := h
  unfold applyTagDelta
  split_ifs <;> simp_all [le_max_left]

/-- A zero article counter stays zero under a `-1` delta, whatever the
entity kind. -/
theorem applyTagDelta_article_zero (now : Int) (e : String)
    (r : TagUsageRow) (h : r.article_count = 0) :
    (applyTagDelta now e (-1) r).article_count = 0 := by
  unfold applyTagDelta
  split_ifs <;> simp_all

/-- The per-row mutation preserves `0 ≤ week_count ≤ month_count`. -/
theorem applyTagDelta_week_le_month (now : Int) (e : String) (d : Int)
    (r : TagUsageRow)
    (h : 0 ≤ r.week_count ∧ r.week_count ≤ r.month_count) :
    0 ≤ (applyTagDelta now e d r).week_count ∧
    (applyTagDelta now e d r).week_count ≤
      (applyTagDelta now e d r).month_count := by
  obtain ⟨h1, h2⟩ := h
  unfold applyTagDelta
  split_ifs <;> simp_all <;> omega

/-- On the missing-row branch, a recognized entity type or a positive
delta makes the counter arithmetic touch a `None` attribute of the
transient object, raising `TypeError`. -/
theorem applyTagDeltaTransient_new_err (now : Int) (e : String) (d : Int)
    (tag : String)
    (h : e = "article" ∨ e = "space" ∨ e = "user" ∨ 0 < d) :
    applyTagDeltaTransient now e d (newTransientTagUsage tag) =
      Except.error ("TypeError: NoneType + int") := by
  rcases h with he | he | he | hd
  · subst he
    simp [applyTagDeltaTransient, pyAddOpt, newTransientTagUsage, Except.map]
  · subst he
    simp [applyTagDeltaTransient, pyAddOpt, newTransientTagUsage, Except.map]
  · subst he
    simp [applyTagDeltaTransient, pyAddOpt, newTransientTagUsage, Except.map]
  · by_cases h1 : (e == "article") = true
    · simp [applyTagDeltaTransient, h1, pyAddOpt, newTransientTagUsage, Except.map]
    · by_cases h2 : (e == "space") = true
      · simp [applyTagDeltaTransient, h1, h2, pyAddOpt, newTransientTagUsage, Except.map]
      · by_cases h3 : (e == "user") = true
        · simp [applyTagDeltaTransient, h1, h2, h3, pyAddOpt,
            newTransientTagUsage, Except.map]
        · simp [applyTagDeltaTransient, h1, h2, h3, hd, pyAddOpt,
            newTransientTagUsage, Except.map]

/-- The missing-row branch reaches the commit only when no attribute of
the transient object was touched: the entity type is unrecognized and
the delta is not positive, and the object is flushed untouched. -/
theorem applyTagDeltaTransient_new_ok (now : Int) (e : String) (d : Int)
    (tag : String) (t : TransientTagUsage)
    (h : applyTagDeltaTransient now e d (newTransientTagUsage tag) =
      Except.ok t) :
    t = newTransientTagUsage tag ∧ ¬ 0 < d := by
  by_cases h1 : (e == "article") = true
  · simp [applyTagDeltaTransient, h1, pyAddOpt, newTransientTagUsage, Except.map] at h
  · by_cases h2 : (e == "space") = true
    · simp [applyTagDeltaTransient, h1, h2, pyAddOpt,
        newTransientTagUsage, Except.map] at h
    · by_cases h3 : (e == "user") = true
      · simp [applyTagDeltaTransient, h1, h2, h3, pyAddOpt,
          newTransientTagUsage, Except.map] at h
      · by_cases hd : 0 < d
        · simp [applyTagDeltaTransient, h1, h2, h3, hd, pyAddOpt,
            newTransientTagUsage, Except.map] at h
        · simp [applyTagDeltaTransient, h1, h2, h3, hd, pyAddOpt,
            Except.map] at h
          exact ⟨h.symm, hd⟩

/-- An untouched transient row flushes to the zero-counter row. -/
theorem flushTransient_new (tag : String) :
    flushTransient (newTransientTagUsage tag) = freshTagUsage tag := rfl

/-- Membership in a successfully updated table comes from an old row
(possibly mutated) or from the freshly inserted default row. -/
theorem mem_update_tag_usage (now : Int) (rows : List TagUsageRow)
    (tag e : String) (d : Int) (rows2 : List TagUsageRow) (r : TagUsageRow)
    (hok : update_tag_usage now rows tag e d = Except.ok rows2)
    (hr : r ∈ rows2) :
    r ∈ rows ∨ (∃ r0 ∈ rows, r = applyTagDelta now e d r0) ∨
      r = freshTagUsage tag := by
  unfold update_tag_usage at hok
  by_cases hc : AI_TAGS.contains tag = false
  · rw [if_pos hc] at hok
    cases hok
    exact Or.inl hr
  · rw [if_neg hc] at hok
    cases hfind : rows.find? (fun x => x.tag == tag) with
    | some x =>
        rw [hfind] at hok
        cases hok
        obtain ⟨r0, hr0, hmap⟩ := List.mem_map.mp hr
        by_cases ht : (r0.tag == tag) = true
        · rw [if_pos ht] at hmap
          exact Or.inr (Or.inl ⟨r0, hr0, hmap.symm⟩)
        · rw [if_neg ht] at hmap
          exact Or.inl (hmap ▸ hr0)
    | none =>
        rw [hfind] at hok
        cases htr : applyTagDeltaTransient now e d (newTransientTagUsage tag) with
        | error e2 =>
            rw [htr] at hok
            exact Except.noConfusion hok
        | ok t =>
            rw [htr] at hok
            cases hok
            rcases List.mem_append.mp hr with hold | hnew
            · exact Or.inl hold
            · have ht2 := (applyTagDeltaTransient_new_ok now e d tag t htr).1
              rw [List.mem_singleton.mp hnew, ht2, flushTransient_new]
              exact Or.inr (Or.inr rfl)

/-- One `-1` update request keeps the article counter of the tag at zero
across the whole stored table (a request that raises `TypeError` rolls
back and leaves the table unchanged). -/
theorem update_tag_usage_article_zero_step (now : Int)
    (rows : List TagUsageRow) (tag e : String)
    (h : ∀ r ∈ rows, r.tag = tag → r.article_count = 0) :
    ∀ r ∈ update_tag_usage_run now rows tag e (-1),
      r.tag = tag → r.article_count = 0 := by
  intro r hr htag
  unfold update_tag_usage_run at hr
  cases hu : update_tag_usage now rows tag e (-1) with
  | error e2 =>
      rw [hu] at hr
      exact h r hr htag
  | ok rows2 =>
      rw [hu] at hr
      rcases mem_update_tag_usage now rows tag e (-1) rows2 r hu hr with
        hold | ⟨r0, hr0, heq⟩ | hnew
      · exact h r hold htag
      · subst heq
        rw [applyTagDelta_tag] at htag
        exact applyTagDelta_article_zero now e r0 (h r0 hr0 htag)
      · subst hnew
        rfl

/-- C7: `update_tag_usage` is a no-op for tags outside the fixed
taxonomy; every table a call commits keeps all three per-entity counters
at or above zero; any number of repeated `-1` delta requests applied to
a table whose rows for the tag have a zero article counter leave that
counter at zero (a call that raises the missing-row `TypeError` commits
nothing and leaves the table unchanged); and only a positive delta
touches `last_used_at`, `week_count` and `month_count` on a stored row —
a nonpositive delta leaves all three unchanged, a positive one stamps
the timestamp and bumps both counters by one. The final conjunct pins
down the error path itself: with no stored row for the tag, a
recognized entity kind or a positive delta computes `None + int` on the
transient object and raises. -/
theorem c7_update_tag_usage_floor (now : Int) (rows : List TagUsageRow)
    (tag entityType : String) (delta : Int) (n : Nat) (r0 : TagUsageRow) :
    (AI_TAGS.contains tag = false →
      update_tag_usage now rows tag entityType delta = Except.ok rows) ∧
    (∀ rows2, update_tag_usage now rows tag entityType delta =
        Except.ok rows2 →
      (∀ r ∈ rows, 0 ≤ r.article_count ∧ 0 ≤ r.space_count ∧
        0 ≤ r.user_count) →
      ∀ r ∈ rows2,
        0 ≤ r.article_count ∧ 0 ≤ r.space_count ∧ 0 ≤ r.user_count) ∧
    ((∀ r ∈ rows, r.tag = tag → r.article_count = 0) →
      ∀ r ∈ (fun rs =>
          update_tag_usage_run now rs tag entityType (-1))^[n] rows,
        r.tag = tag → r.article_count = 0) ∧
    (delta ≤ 0 →
      (applyTagDelta now entityType delta r0).last_used_at =
        r0.last_used_at ∧
      (applyTagDelta now entityType delta r0).week_count = r0.week_count ∧
      (applyTagDelta now entityType delta r0).month_count =
        r0.month_count) ∧
    (0 < delta →
      (applyTagDelta now entityType delta r0).last_used_at = some now ∧
      (applyTagDelta now entityType delta r0).week_count =
        r0.week_count + 1 ∧
      (applyTagDelta now entityType delta r0).month_count =
        r0.month_count + 1) ∧
    (rows.find? (fun r => r.tag == tag) = none →
      AI_TAGS.contains tag = true →
      (entityType = "article" ∨ entityType = "space" ∨
        entityType = "user" ∨ 0 < delta) →
      update_tag_usage now rows tag entityType delta =
        Except.error ("TypeError: NoneType + int")) := by
  refine ⟨?_, ?_, ?_, ?_, ?_, ?_⟩
  · intro hc
    unfold update_tag_usage
    rw [if_pos hc]
  · intro rows2 hok h r hr
    rcases mem_update_tag_usage now rows tag entityType delta rows2 r hok
        hr with hold | ⟨x, hx, heq⟩ | hnew
    · exact h r hold
    · subst heq
      exact applyTagDelta_counts_nonneg now entityType delta x (h x hx)
    · subst hnew
      refine ⟨le_refl 0, le_refl 0, le_refl 0⟩
  · induction n with
    | zero => intro h; simpa using h
    | succ m ih =>
        intro h
        rw [Function.iterate_succ_apply']
        exact update_tag_usage_article_zero_step now _ tag entityType (ih h)
  · intro hd
    have hnot : ¬ 0 < delta := by omega
    unfold applyTagDelta
    split_ifs <;> simp_all
  · intro hd
    unfold applyTagDelta
    split_ifs <;> simp_all
  · intro hfind hc hcase
    unfold update_tag_usage
    rw [if_neg (by rw [hc]; simp), hfind,
      applyTagDeltaTransient_new_err now entityType delta tag hcase]

/-- C7 witness: three `-1` delta requests on a stored zero-counter RAG
row leave the single resulting row with an article counter of zero. -/
theorem c7_update_tag_usage_floor_witness :
    (((fun rs => update_tag_usage_run 5 rs ("RAG") ("article") (-1))^[3]
        [freshTagUsage ("RAG")]).headD (freshTagUsage ("RAG"))).article_count
      = 0 := by
  have h := (c7_update_tag_usage_floor 5 [freshTagUsage ("RAG")] ("RAG")
    ("article") (-1) 3 (freshTagUsage ("RAG"))).2.2.1
  exact h (by decide) _ (by decide) (by decide)

/-- Invariant step for `reset_periodic_counts`. -/
theorem reset_periodic_counts_week_le_month (rows : List TagUsageRow)
    (period : String)
    (h : ∀ r ∈ rows, 0 ≤ r.week_count ∧ r.week_count ≤ r.month_count) :
    ∀ r ∈ reset_periodic_counts rows period,
      0 ≤ r.week_count ∧ r.week_count ≤ r.month_count := by
  intro r hr
  unfold reset_periodic_counts at hr
  split_ifs at hr
  · obtain ⟨x, hx, hmap⟩ := List.mem_map.mp hr
    obtain ⟨hx1, hx2⟩ := h x hx
    subst hmap
    constructor
    · simp
    · simpa using le_trans hx1 hx2
  · obtain ⟨x, hx, hmap⟩ := List.mem_map.mp hr
    subst hmap
    simp
  · exact h r hr

/-- C10: starting from any table satisfying
`0 ≤ week_count ≤ month_count` — in particular from fresh zero-counter
rows — every sequence of `update_tag_usage` and `reset_periodic_counts`
requests preserves the invariant `week_count ≤ month_count` on the
stored table: positive deltas on a stored row bump both counters
together, an update that raises the missing-row `TypeError` commits
nothing, the only committing missing-row call inserts the zeroed
default row, a week reset zeroes only the week counter, and a month
reset zeroes both. -/
theorem c10_week_le_month_invariant (rows : List TagUsageRow)
    (ops : List TagOp)
    (h : ∀ r ∈ rows, 0 ≤ r.week_count ∧ r.week_count ≤ r.month_count) :
    ∀ r ∈ applyTagOps rows ops,
      0 ≤ r.week_count ∧ r.week_count ≤ r.month_count := by
  induction ops generalizing rows with
  | nil => simpa [applyTagOps] using h
  | cons op rest ih =>
      have hstep : ∀ r ∈ applyTagOp rows op,
          0 ≤ r.week_count ∧ r.week_count ≤ r.month_count := by
        cases op with
        | update tag e d t =>
            intro r hr
            have hr2 : r ∈ update_tag_usage_run t rows tag e d := hr
            unfold update_tag_usage_run at hr2
            cases hu : update_tag_usage t rows tag e d with
            | error e2 =>
                rw [hu] at hr2
                exact h r hr2
            | ok rows2 =>
                rw [hu] at hr2
                rcases mem_update_tag_usage t rows tag e d rows2 r hu hr2
                  with hold | ⟨x, hx, heq⟩ | hnew
                · exact h r hold
                · subst heq
                  exact applyTagDelta_week_le_month t e d x (h x hx)
                · subst hnew
                  exact ⟨le_refl 0, le_refl 0⟩
        | reset period =>
            exact reset_periodic_counts_week_le_month rows period h
      have : applyTagOps rows (op :: rest) =
          applyTagOps (applyTagOp rows op) rest := rfl
      rw [this]
      exact ih (applyTagOp rows op) hstep

/-- C10 witness: a positive update followed by a week reset on a fresh
RAG row keeps the week counter at most the month counter. -/
theorem c10_week_le_month_invariant_witness :
    0 ≤ ((applyTagOps [freshTagUsage ("RAG")]
        [TagOp.update ("RAG") ("article") 1 50, TagOp.reset ("week")]).headD
        (freshTagUsage ("RAG"))).week_count ∧
    ((applyTagOps [freshTagUsage ("RAG")]
        [TagOp.update ("RAG") ("article") 1 50, TagOp.reset ("week")]).headD
        (freshTagUsage ("RAG"))).week_count ≤
      ((applyTagOps [freshTagUsage ("RAG")]
        [TagOp.update ("RAG") ("article") 1 50, TagOp.reset ("week")]).headD
        (freshTagUsage ("RAG"))).month_count := by
  have h := c10_week_le_month_invariant [freshTagUsage ("RAG")]
    [TagOp.update ("RAG") ("article") 1 50, TagOp.reset ("week")]
    (by decide)
  exact h _ (by decide)

/-- The code growth factor agrees with the unguarded spec formula
whenever the counters satisfy `0 ≤ week_count ≤ month_count`. -/
theorem growthFactor_eq_spec (r : TagUsageRow) (h0 : 0 ≤ r.week_count)
    (h : r.week_count ≤ r.month_count) :
    growthFactor r =
      min 2 ((r.week_count : ℚ) / max 1 ((r.month_count : ℚ) / 4)) := by
  unfold growthFactor
  by_cases hm : 0 < r.month_count
  · rw [if_pos hm]
  · rw [if_neg hm]
    have hw : r.week_count = 0 := by omega
    rw [hw]
    norm_num

/-- C8 (amended): for every stored row whose counters satisfy
`0 ≤ week_count ≤ month_count` (the states the engine itself produces),
`calculate_trending_scores` assigns exactly the specified score
`log(total + 1) * 10 + recency * 30 + min(2, week / max(1, month / 4)) * 20`;
rows with `month_count = 0` but a positive week counter instead get a
growth factor of zero. -/
theorem c8_trending_score_formula (now : Int) (rows : List TagUsageRow)
    (h : ∀ r ∈ rows, 0 ≤ r.week_count ∧ r.week_count ≤ r.month_count) :
    calculate_trending_scores now rows =
      rows.map (fun r => (r, spec_trending_score_of now r)) := by
  unfold calculate_trending_scores
  apply List.map_congr_left
  intro r hr
  obtain ⟨h0, hwm⟩ := h r hr
  unfold trending_score_of spec_trending_score_of
  rw [growthFactor_eq_spec r h0 hwm]

/-- C8 (counterexample): on a row with `month_count = 0` and
`week_count = 1` the code computes a growth factor of zero
(tag_service.py line 95 guards on `month_count > 0`), so the stored score
is `0`, while the spec formula `min(2.0, week_count / max(1, month_count / 4))`
gives growth `1` and score `20`. -/
theorem c8_trending_score_counterexample :
    (calculate_trending_scores 0 [weekOnlyRow]).map (fun p => p.2) =
      [trending_score_of 0 weekOnlyRow] ∧
    trending_score_of 0 weekOnlyRow = 0 ∧
    spec_trending_score_of 0 weekOnlyRow = 20 ∧
    (calculate_trending_scores 0 [weekOnlyRow]).map (fun p => p.2) ≠
      [spec_trending_score_of 0 weekOnlyRow] := by
  have hcode : trending_score_of 0 weekOnlyRow = 0 := by
    unfold trending_score_of totalUsage recencyFactor growthFactor weekOnlyRow
    norm_num [Real.log_one]
  have hspec : spec_trending_score_of 0 weekOnlyRow = 20 := by
    unfold spec_trending_score_of totalUsage recencyFactor weekOnlyRow
    norm_num [Real.log_one]
  refine ⟨by simp [calculate_trending_scores], hcode, hspec, ?_⟩
  simp [calculate_trending_scores, hcode, hspec]

/-- C8 witness: the amended formula evaluated on a one-row table whose
counters respect the invariant. -/
theorem c8_trending_score_formula_witness :
    calculate_trending_scores 1000 [recentLowGrowthRow] =
      [recentLowGrowthRow].map
        (fun r => (r, spec_trending_score_of 1000 r)) :=
  c8_trending_score_formula 1000 [recentLowGrowthRow] (by decide)

/-- Strict monotonicity of the recency factor: a more recent last use
(still no later than `now`) gives a strictly larger factor. -/
theorem recencyFactor_strict_mono (now t1 t2 : Int) (hlt : t2 < t1)
    (hnow : t1 ≤ now) :
    recencyFactor now (some t2) < recencyFactor now (some t1) := by
  unfold recencyFactor
  have h1 : ((now - t1 : Int) : ℚ) < ((now - t2 : Int) : ℚ) := by
    exact_mod_cast (by omega : now - t1 < now - t2)
  have h0 : (0 : ℚ) ≤ ((now - t1 : Int) : ℚ) := by
    exact_mod_cast (by omega : (0 : Int) ≤ now - t1)
  have hd : ((now - t1 : Int) : ℚ) / 3600 / 168 <
      ((now - t2 : Int) : ℚ) / 3600 / 168 := by
    apply div_lt_div_of_pos_right _ (by norm_num)
    apply div_lt_div_of_pos_right h1 (by norm_num)
  have hd0 : (0 : ℚ) ≤ ((now - t1 : Int) : ℚ) / 3600 / 168 := by positivity
  have hpos : (0 : ℚ) < 1 + ((now - t1 : Int) : ℚ) / 3600 / 168 := by
    linarith
  exact one_div_lt_one_div_of_lt hpos (by linarith)

/-- C9 (amended): between two rows with equal total usage AND equal week
and month counters, both last used no later than `now`, the more recently
used row receives the strictly higher trending score. -/
theorem c9_recency_orders_trending (now t1 t2 : Int) (r1 r2 : TagUsageRow)
    (htot : totalUsage r1 = totalUsage r2)
    (hw : r1.week_count = r2.week_count)
    (hm : r1.month_count = r2.month_count)
    (hl1 : r1.last_used_at = some t1) (hl2 : r2.last_used_at = some t2)
    (hlt : t2 < t1) (hnow : t1 ≤ now) :
    trending_score_of now r2 < trending_score_of now r1 := by
  have hg : growthFactor r1 = growthFactor r2 := by
    unfold growthFactor
    rw [hw, hm]
  have hrec : recencyFactor now r2.last_used_at <
      recencyFactor now r1.last_used_at := by
    rw [hl1, hl2]
    exact recencyFactor_strict_mono now t1 t2 hlt hnow
  unfold trending_score_of
  rw [htot, hg]
  have hrecR : ((recencyFactor now r2.last_used_at : ℚ) : ℝ) <
      ((recencyFactor now r1.last_used_at : ℚ) : ℝ) := by
    exact_mod_cast hrec
  have h30 : ((recencyFactor now r2.last_used_at : ℚ) : ℝ) * 30 <
      ((recencyFactor now r1.last_used_at : ℚ) : ℝ) * 30 := by
    linarith
  exact add_lt_add_right (add_lt_add_left h30 _) _

/-- C9 (counterexample): two rows with equal total usage where the more
recently used row scores strictly lower, because the other row has a
growth factor of two (worth 40 points) while recency is worth at most 30:
`recentLowGrowthRow` was used at time 1000 and scores 30,
`staleHighGrowthRow` was used a full week earlier and scores 55. -/
theorem c9_recency_ordering_counterexample :
    totalUsage recentLowGrowthRow = totalUsage staleHighGrowthRow ∧
    recentLowGrowthRow.last_used_at = some 1000 ∧
    staleHighGrowthRow.last_used_at = some (-603800) ∧
    trending_score_of 1000 recentLowGrowthRow <
      trending_score_of 1000 staleHighGrowthRow := by
  refine ⟨rfl, rfl, rfl, ?_⟩
  have hA : trending_score_of 1000 recentLowGrowthRow = 30 := by
    unfold trending_score_of totalUsage recencyFactor growthFactor
      recentLowGrowthRow
    norm_num [Real.log_one]
  have hB : trending_score_of 1000 staleHighGrowthRow = 55 := by
    unfold trending_score_of totalUsage recencyFactor growthFactor
      staleHighGrowthRow
    norm_num [Real.log_one]
  rw [hA, hB]
  norm_num

/-- C9 witness: the amended ordering evaluated at two concrete rows that
differ only in their last-use time. -/
theorem c9_recency_orders_trending_witness :
    trending_score_of 1000
        { tag := "RAG", article_count := 0, space_count := 0, user_count := 0,
          last_used_at := some 400, week_count := 1, month_count := 2 } <
      trending_score_of 1000
        { tag := "LLMs", article_count := 0, space_count := 0, user_count := 0,
          last_used_at := some 500, week_count := 1, month_count := 2 } :=
  c9_recency_orders_trending 1000 500 400
    { tag := "LLMs", article_count := 0, space_count := 0, user_count := 0,
      last_used_at := some 500, week_count := 1, month_count := 2 }
    { tag := "RAG", article_count := 0, space_count := 0, user_count := 0,
      last_used_at := some 400, week_count := 1, month_count := 2 }
    rfl rfl rfl rfl rfl (by decide) (by decide)

/-- An alphanumeric character is not a hyphen. -/
theorem isLowerAlnum_ne_hyphen (c : Char) (h : isLowerAlnum c = true) :
    (c == '-') = false := by
  rw [beq_eq_false_iff_ne]
  intro hc
  subst hc
  exact absurd h (by decide)

/-- Digit characters are in the `[a-z0-9]` class. -/
theorem digitChar_alnum (n : Nat) (h : n < 10) :
    isLowerAlnum (digitChar n) = true := by
  interval_cases n <;> decide

/-- Every character of a decimal representation is alphanumeric. -/
theorem natDigitsAux_alnum (fuel : Nat) :
    ∀ n, ∀ c ∈ natDigitsAux fuel n, isLowerAlnum c = true := by
  induction fuel with
  | zero => intro n c hc; simp [natDigitsAux] at hc
  | succ f ih =>
      intro n c hc
      unfold natDigitsAux at hc
      by_cases hn : n < 10
      · rw [if_pos hn] at hc
        rw [List.mem_singleton.mp hc]
        exact digitChar_alnum n hn
      · rw [if_neg hn] at hc
        rcases List.mem_append.mp hc with h1 | h2
        · exact ih (n / 10) c h1
        · rw [List.mem_singleton.mp h2]
          exact digitChar_alnum (n % 10) (Nat.mod_lt n (by omega))

/-- Every character of `natDigits n` is alphanumeric. -/
theorem natDigits_alnum (n : Nat) :
    ∀ c ∈ natDigits n, isLowerAlnum c = true :=
  natDigitsAux_alnum (n + 1) n

/-- The decimal representation is never empty. -/
theorem natDigits_ne_nil (n : Nat) : natDigits n ≠ [] := by
  unfold natDigits natDigitsAux
  by_cases hn : n < 10
  · rw [if_pos hn]; simp
  · rw [if_neg hn]; simp

/-- Stripping trailing hyphens only removes characters. -/
theorem mem_dropTrailingHyphens (cs : List Char) (x : Char)
    (hx : x ∈ dropTrailingHyphens cs) : x ∈ cs := by
  induction cs with
  | nil => simpa [dropTrailingHyphens] using hx
  | cons c t ih =>
      unfold dropTrailingHyphens at hx
      cases hrec : dropTrailingHyphens t with
      | nil =>
          rw [hrec] at hx
          by_cases hc : (c == '-') = true
          · rw [if_pos hc] at hx
            simp at hx
          · rw [if_neg hc] at hx
            rw [List.mem_singleton.mp hx]
            exact List.mem_cons_self c t
      | cons a r =>
          rw [hrec] at hx
          rcases List.mem_cons.mp hx with h1 | h2
          · rw [h1]; exact List.mem_cons_self c t
          · exact List.mem_cons_of_mem c (ih (hrec ▸ h2))

/-- Stripping trailing hyphens never lengthens the list. -/
theorem dropTrailingHyphens_length_le (cs : List Char) :
    (dropTrailingHyphens cs).length ≤ cs.length := by
  induction cs with
  | nil => simp [dropTrailingHyphens]
  | cons c t ih =>
      unfold dropTrailingHyphens
      cases hrec : dropTrailingHyphens t with
      | nil =>
          by_cases hc : (c == '-') = true
          · rw [if_pos hc]; simp
          · rw [if_neg hc]; simp
      | cons a r =>
          simp only [List.length_cons]
          rw [hrec] at ih
          simpa using ih

/-- A list that starts with a non-hyphen keeps a nonempty result, whose
head is unchanged, after stripping trailing hyphens. -/
theorem dropTrailingHyphens_cons_head (c : Char) (t : List Char)
    (hc : (c == '-') = false) :
    dropTrailingHyphens (c :: t) ≠ [] ∧
    (dropTrailingHyphens (c :: t)).head? = some c := by
  unfold dropTrailingHyphens
  cases hrec : dropTrailingHyphens t with
  | nil => rw [if_neg (by simp [hc])]; simp
  | cons a r => simp

/-- Introduction form for the username pattern check. -/
theorem patternOk_intro (cs : List Char) (h3 : 3 ≤ cs.length)
    (h32 : cs.length ≤ 32) (a : Char) (ha : cs.head? = some a)
    (haa : isLowerAlnum a = true) (b : Char) (hb : cs.getLast? = some b)
    (hbb : isLowerAlnum b = true)
    (hall : ∀ c ∈ cs, isLowerAlnum c = true ∨ c = '-') :
    patternOk cs = true := by
  unfold patternOk
  rw [ha, hb]
  simp only [Bool.and_eq_true, decide_eq_true_eq, List.all_eq_true]
  refine ⟨⟨⟨⟨h3, h32⟩, haa⟩, hbb⟩, ?_⟩
  intro c hc
  rcases hall c hc with h | h
  · simp [h]
  · simp [h]

/-- The pattern check bounds the length from above. -/
theorem patternOk_length_le (cs : List Char) (h : patternOk cs = true) :
    cs.length ≤ 32 := by
  unfold patternOk at h
  simp only [Bool.and_eq_true, decide_eq_true_eq] at h
  exact h.1.1.1.2

/-- The pattern check bounds the length from below. -/
theorem patternOk_length_ge (cs : List Char) (h : patternOk cs = true) :
    3 ≤ cs.length := by
  unfold patternOk at h
  simp only [Bool.and_eq_true, decide_eq_true_eq] at h
  exact h.1.1.1.1

/-- The pattern check forces an alphanumeric head. -/
theorem patternOk_head (cs : List Char) (c : Char)
    (h : patternOk cs = true) (hc : cs.head? = some c) :
    isLowerAlnum c = true := by
  unfold patternOk at h
  rw [hc] at h
  simp only [Bool.and_eq_true, decide_eq_true_eq] at h
  exact h.1.1.2

/-- The pattern check forces every character into `[a-z0-9-]`. -/
theorem patternOk_all (cs : List Char) (h : patternOk cs = true) :
    ∀ c ∈ cs, isLowerAlnum c = true ∨ c = '-' := by
  unfold patternOk at h
  simp only [Bool.and_eq_true, decide_eq_true_eq, List.all_eq_true] at h
  intro c hc
  have h6 := h.2 c hc
  simp only [Bool.or_eq_true, beq_iff_eq] at h6
  exact h6

/-- For a base that already passes the username pattern and a suffix
whose decimal form fits the 32-character budget, `_apply_suffix` builds
`trimmedBase ++ "-" ++ digits` and that candidate passes the pattern
check (so the source raises no validation error and the result stays
within 32 characters). -/
theorem mkSuffixCandidate_ok (base : String) (k : Nat)
    (hb : patternOk base.data = true) (hd : (natDigits k).length ≤ 30) :
    mkSuffixCandidate base k =
      dropTrailingHyphens (base.data.take (31 - (natDigits k).length)) ++
        '-' :: natDigits k ∧
    patternOk (mkSuffixCandidate base k) = true := by
  have hD1 : 1 ≤ (natDigits k).length :=
    List.length_pos.mpr (natDigits_ne_nil k)
  have hbase3 := patternOk_length_ge base.data hb
  have hball := patternOk_all base.data hb
  obtain ⟨c0, rest, hsplit⟩ : ∃ c0 rest, base.data = c0 :: rest := by
    cases hc : base.data with
    | nil => rw [hc] at hbase3; simp at hbase3
    | cons a t => exact ⟨a, t, rfl⟩
  have hc0 : isLowerAlnum c0 = true :=
    patternOk_head base.data c0 hb (by rw [hsplit]; rfl)
  have hc0h : (c0 == '-') = false := isLowerAlnum_ne_hyphen c0 hc0
  -- the truncated base
  obtain ⟨m', hm'⟩ : ∃ m', 31 - (natDigits k).length = m' + 1 :=
    ⟨30 - (natDigits k).length, by omega⟩
  have htake : base.data.take (31 - (natDigits k).length) =
      c0 :: rest.take m' := by
    rw [hsplit, hm', List.take_succ_cons]
  have htrim := dropTrailingHyphens_cons_head c0 (rest.take m') hc0h
  obtain ⟨t', ht'⟩ : ∃ t',
      dropTrailingHyphens (base.data.take (31 - (natDigits k).length)) =
        c0 :: t' := by
    rw [htake]
    cases hcase : dropTrailingHyphens (c0 :: rest.take m') with
    | nil => exact absurd hcase htrim.1
    | cons a t =>
        have := htrim.2
        rw [hcase] at this
        simp only [List.head?_cons, Option.some.injEq] at this
        exact ⟨t, by rw [this]⟩
  have htlen : (c0 :: t').length ≤ 31 - (natDigits k).length := by
    rw [← ht', htake]
    calc (dropTrailingHyphens (c0 :: rest.take m')).length
        ≤ (c0 :: rest.take m').length :=
          dropTrailingHyphens_length_le _
      _ = (rest.take m').length + 1 := by simp
      _ ≤ m' + 1 := by
          have := List.length_take_le m' rest
          omega
      _ = 31 - (natDigits k).length := hm'.symm
  -- the candidate and its shape
  have hpy : pythonTake base.data
      ((32 : Int) - (('-' :: natDigits k).length : Int)) =
      base.data.take (31 - (natDigits k).length) := by
    unfold pythonTake
    rw [if_pos (by simp; omega)]
    congr 1
    simp
    omega
  have hkey : mkSuffixCandidate base k = (c0 :: t') ++ '-' :: natDigits k := by
    unfold mkSuffixCandidate
    simp only [hpy, ht']
    rw [if_neg (by simp; omega), if_neg (by simp)]
  -- pattern facts for the assembled candidate
  obtain ⟨d, hdlast⟩ : ∃ d, (natDigits k).getLast? = some d :=
    ⟨(natDigits k).getLast (natDigits_ne_nil k),
     List.getLast?_eq_getLast_of_ne_nil (natDigits_ne_nil k)⟩
  have hdmem : d ∈ natDigits k := by
    have := List.mem_getLast?_eq_getLast (l := natDigits k) (x := d)
      (by rw [hdlast]; rfl)
    obtain ⟨hne, hgl⟩ := this
    rw [hgl]
    exact List.getLast_mem hne
  have htlen2 : t'.length + 1 ≤ 31 - (natDigits k).length := by
    simpa using htlen
  have hpat : patternOk ((c0 :: t') ++ '-' :: natDigits k) = true := by
    refine patternOk_intro _ ?_ ?_ c0 ?_ hc0 d ?_
      (natDigits_alnum k d hdmem) ?_
    · simp only [List.length_append, List.length_cons]
      omega
    · simp only [List.length_append, List.length_cons]
      omega
    · simp
    · rw [List.getLast?_append_of_ne_nil _ (List.cons_ne_nil '-' _)]
      have : ('-' :: natDigits k) = ['-'] ++ natDigits k := rfl
      rw [this, List.getLast?_append_of_ne_nil _ (natDigits_ne_nil k), hdlast]
    · intro c hc
      rcases List.mem_append.mp hc with hl | hr
      · have hmem0 : c ∈
            dropTrailingHyphens
              (List.take (31 - (natDigits k).length) base.data) := by
          rw [ht']
          exact hl
        have hmem : c ∈ base.data :=
          List.mem_of_mem_take (mem_dropTrailingHyphens _ c hmem0)
        exact hball c hmem
      · rcases List.mem_cons.mp hr with h1 | h2
        · exact Or.inr h1
        · exact Or.inl (natDigits_alnum k c h2)
  exact ⟨by rw [hkey, ht'], by rw [hkey]; exact hpat⟩

/-- With a pattern-valid base and a suffix whose decimal form fits,
`_apply_suffix` returns the suffixed candidate instead of raising. -/
theorem apply_suffix_ok (base : String) (k : Nat)
    (hb : patternOk base.data = true) (hd : (natDigits k).length ≤ 30) :
    apply_suffix base k =
      Except.ok (String.mk (mkSuffixCandidate base k)) := by
  unfold apply_suffix
  rw [if_pos (mkSuffixCandidate_ok base k hb hd).2]

/-- A successful `normalize_username` returns a candidate that passes the
username pattern. -/
theorem normalize_username_ok (value base : String)
    (h : normalize_username value = Except.ok base) :
    patternOk base.data = true := by
  unfold normalize_username at h
  by_cases hp : patternOk (basic_slugify (pyStrip value)).data = true
  · rw [if_pos hp] at h
    cases h
    exact hp
  · rw [if_neg hp] at h
    cases h

/-- Unfolding equation for one iteration of the collision loop. -/
theorem genLoop_succ (taken : List String) (base : String) (f : Nat)
    (cand : String) (s : Nat) :
    genLoop taken base (f + 1) cand s =
      (if taken.contains cand then
        match apply_suffix base s with
        | Except.ok next => genLoop taken base f next (s + 1)
        | Except.error e => Except.error e
      else Except.ok cand) := rfl

/-- Loop invariant of `generate_unique_username`: when the candidates of
iterations `j, …, k - 1` are all taken, the candidate of iteration `k` is
free, and the model fuel covers the remaining iterations, the loop run
from iteration `j` returns the candidate of iteration `k`. -/
theorem genLoop_reaches (taken : List String) (base : String) (k : Nat)
    (hb : patternOk base.data = true)
    (hdig : ∀ j, 1 ≤ j → j ≤ k → (natDigits j).length ≤ 30)
    (htaken : ∀ j, j < k → usernameCandidate base j ∈ taken)
    (hfree : usernameCandidate base k ∉ taken) :
    ∀ fuel j, j ≤ k → k - j + 1 ≤ fuel →
      genLoop taken base fuel (usernameCandidate base j) (j + 1) =
        Except.ok (usernameCandidate base k) := by
  intro fuel
  induction fuel with
  | zero => intro j hj hf; omega
  | succ f ih =>
      intro j hj hf
      by_cases hjk : j = k
      · subst hjk
        have hc : taken.contains (usernameCandidate base j) = false := by
          rw [Bool.eq_false_iff]
          intro hcon
          exact hfree (List.mem_of_elem_eq_true hcon)
        rw [genLoop_succ, hc, if_neg (by decide)]
      · have hjlt : j < k := by omega
        have hc : taken.contains (usernameCandidate base j) = true :=
          List.elem_eq_true_of_mem (htaken j hjlt)
        rw [genLoop_succ, hc, if_pos rfl]
        rw [apply_suffix_ok base (j + 1) hb
          (hdig (j + 1) (by omega) (by omega))]
        exact ih (j + 1) (by omega) (by omega)

/-- C6: on an empty table the allocator returns the normalized local
part (`alice`); with `alice` taken it returns `alice-1`; and in general,
when the base and the first `k - 1` suffixed candidates are taken while
candidate `k` is free, it deterministically returns the base trimmed to
fit, a hyphen, and the decimal suffix `k`, a result that always stays
within the 32-character maximum. The fuel argument models the unbounded
source loop and only needs to cover the `k + 1` inspected candidates;
the suffix-digit bound keeps the suffix inside the 32-character budget,
without which no suffixed candidate exists at all. -/
theorem c6_generate_unique_username (taken : List String)
    (email base : String) (k fuel : Nat)
    (hnorm : normalize_username (emailLocalPart email) = Except.ok base)
    (hk : 1 ≤ k) (hfuel : k + 1 ≤ fuel)
    (hdig : ∀ j, 1 ≤ j → j ≤ k → (natDigits j).length ≤ 30)
    (htaken : ∀ j, j < k → usernameCandidate base j ∈ taken)
    (hfree : usernameCandidate base k ∉ taken) :
    generate_unique_username fuel taken email =
      Except.ok (usernameCandidate base k) ∧
    (usernameCandidate base k).data.length ≤ 32 ∧
    usernameCandidate base k =
      String.mk (dropTrailingHyphens
        (base.data.take (31 - (natDigits k).length)) ++
        '-' :: natDigits k) ∧
    (∀ f, 1 ≤ f → generate_unique_username f [] ("alice@x.com") =
      Except.ok ("alice")) ∧
    (∀ f, 2 ≤ f → generate_unique_username f [("alice")] ("alice@x.com") =
      Except.ok ("alice-1")) := by
  have hb := normalize_username_ok _ _ hnorm
  have hmk := mkSuffixCandidate_ok base k hb (hdig k hk le_rfl)
  refine ⟨?_, ?_, ?_, ?_, ?_⟩
  · unfold generate_unique_username
    rw [hnorm]
    exact genLoop_reaches taken base k hb hdig htaken hfree fuel 0
      (by omega) (by omega)
  · unfold usernameCandidate
    rw [if_neg (by omega)]
    exact patternOk_length_le _ hmk.2
  · unfold usernameCandidate
    rw [if_neg (by omega), hmk.1]
  · intro f hf
    obtain ⟨g, rfl⟩ : ∃ g, f = g + 1 := ⟨f - 1, by omega⟩
    rfl
  · intro f hf
    obtain ⟨g, rfl⟩ : ∃ g, f = g + 2 := ⟨f - 2, by omega⟩
    rfl

/-- C6 witness: with `alice` and `alice-1` both taken, the allocator
returns the second suffixed candidate `alice-2`. -/
theorem c6_generate_unique_username_witness :
    generate_unique_username 3 [("alice"), ("alice-1")] ("alice@x.com") =
      Except.ok (usernameCandidate ("alice") 2) :=
  (c6_generate_unique_username [("alice"), ("alice-1")] ("alice@x.com")
    ("alice") 2 3 rfl (by decide) (by decide)
    (by intro j h1 h2; interval_cases j <;> decide)
    (by intro j hj; interval_cases j <;> decide)
    (by decide)).1

end AicHub
